import Mathlib

/-!
Verification development for the DocuSync documentation pipeline.

The Python sources are shallowly embedded:
* text is modelled as `List Char` (named `Str`), with helper functions that
  mirror the Python string operations actually used by the code
  (`split('\n')`, `startswith`, `replace`, `strip`, `lower`, `in`, `split()`);
* floating-point scores are modelled as exact rationals `ℚ` (the evaluator
  only adds, subtracts, divides by 3 and clamps, and the orchestrator only
  compares against a threshold);
* the external collaborators (Gemini, the Daytona sandbox, `json.dumps`)
  are modelled as explicit environment records of pure functions; a failed
  or exception-raising remote call is an `Option`/outcome value;
* Python dictionaries keyed by strings are association lists with
  insert-or-overwrite semantics, preserving insertion order.

Source files embedded below:
  `src/mcp_servers/coderabbit.py`   (CodeRabbitServer)
  `src/mcp_servers/galileo_server.py` (GalileoServer)
  `src/mcp_servers/daytona_server.py` (DaytonaServer)
  `src/orchestrator.py`             (MCPOrchestrator)
-/

/-- Text, modelled as a list of characters so that everything reduces in the
kernel. -/
abbrev Str := List Char

/-- Turn a Lean string literal into the `Str` representation. -/
def str (s : String) : Str := s.data

/-- Python `s.split('\n')` (splitting on a single character, keeping empty
parts). -/
def splitOnChar (c : Char) : Str → List Str
  | [] => [[]]
  | x :: xs =>
    let rest := splitOnChar c xs
    if x = c then [] :: rest
    else
      match rest with
      | [] => [[x]]
      | r :: rs => (x :: r) :: rs

/-- Python `s.startswith(p)`. -/
def strStartsWith : Str → Str → Bool
  | _, [] => true
  | [], _ :: _ => false
  | c :: s, p :: ps => c = p && strStartsWith s ps

/-- Python `s.endswith(p)`. -/
def strEndsWith (s p : Str) : Bool :=
  strStartsWith s.reverse p.reverse

/-- Python `p in s` (substring containment). -/
def containsSub (p : Str) : Str → Bool
  | [] => strStartsWith [] p
  | c :: s => strStartsWith (c :: s) p || containsSub p s

/-- Fuel-driven core of `replaceAll`; the fuel is an upper bound on the
number of characters still to be scanned, so that the recursion is
structural and kernel-reducible. -/
def replaceAllAux (pat rep : Str) : Nat → Str → Str
  | 0, s => s
  | _ + 1, [] => []
  | fuel + 1, c :: rest =>
    if pat ≠ [] ∧ strStartsWith (c :: rest) pat then
      rep ++ replaceAllAux pat rep fuel ((c :: rest).drop pat.length)
    else
      c :: replaceAllAux pat rep fuel rest

/-- Python `s.replace(pat, rep)`: replace every non-overlapping occurrence,
scanning left to right. -/
def replaceAll (pat rep s : Str) : Str :=
  replaceAllAux pat rep s.length s

/-- Python whitespace for `str.strip()` / `str.split()` (ASCII part). -/
def pyIsSpace (c : Char) : Bool :=
  c = ' ' || c = '\t' || c = '\n' || c = '\r' || c = '\x0b' || c = '\x0c'

/-- Python `s.strip()`. -/
def pyStrip (s : Str) : Str :=
  ((s.dropWhile pyIsSpace).reverse.dropWhile pyIsSpace).reverse

/-- Python truthiness test `not s or not s.strip()`: empty or
whitespace-only. -/
def pyBlank (s : Str) : Bool :=
  s.all pyIsSpace

/-- ASCII lower-casing of one character (Python `str.lower()` on the ASCII
texts manipulated here). -/
def lowerChar (c : Char) : Char :=
  if 'A' ≤ c ∧ c ≤ 'Z' then Char.ofNat (c.toNat + 32) else c

/-- Python `s.lower()`. -/
def pyLower (s : Str) : Str := s.map lowerChar

/-- Number of whitespace-separated words, i.e. `len(s.split())` in Python.
The boolean records whether the scan is currently inside a word. -/
def wordCountAux : Bool → Str → Nat
  | _, [] => 0
  | inWord, c :: s =>
    if pyIsSpace c then wordCountAux false s
    else (if inWord then 0 else 1) + wordCountAux true s

/-- Python `len(s.split())`. -/
def wordCount (s : Str) : Nat := wordCountAux false s

/-- Decimal digit to character. -/
def digitChar (d : Nat) : Char := Char.ofNat (48 + d % 10)

/-- Fuel-driven decimal rendering of a natural number. -/
def natToStrAux : Nat → Nat → Str
  | 0, _ => []
  | fuel + 1, n =>
    if n < 10 then [digitChar n]
    else natToStrAux fuel (n / 10) ++ [digitChar (n % 10)]

/-- Python `str(n)` for a natural number. -/
def natToStr (n : Nat) : Str := natToStrAux (n + 1) n

/-- Python `"\n".join(lines)`. -/
def joinNL : List Str → Str
  | [] => []
  | [x] => x
  | x :: xs => x ++ '\n' :: joinNL xs

/-- Python `sep.join(parts)` for a one-character separator. -/
def joinWith (sep : Char) : List Str → Str
  | [] => []
  | [x] => x
  | x :: xs => x ++ sep :: joinWith sep xs

/-! ## CodeRabbit server (`src/mcp_servers/coderabbit.py`) -/

/-- The `CodeChange` dataclass of `coderabbit.py`. -/
structure CodeChange where
  file_path : Str
  change_type : Str
  lines_added : List Str
  lines_removed : List Str
  language : Str
  complexity : Str
  summary : Str
deriving DecidableEq

/-- `CodeRabbitServer._detect_language`: first matching extension of the
(ordered) extension table wins, `"unknown"` otherwise. -/
def detect_language (file_path : Str) : Str :=
  let ext_map : List (Str × Str) :=
    [(str ".py", str "python"), (str ".js", str "javascript"),
     (str ".ts", str "typescript"), (str ".java", str "java"),
     (str ".cpp", str "cpp"), (str ".c", str "c"),
     (str ".go", str "go"), (str ".rs", str "rust"),
     (str ".rb", str "ruby"), (str ".php", str "php"),
     (str ".md", str "markdown"), (str ".json", str "json"),
     (str ".yaml", str "yaml"), (str ".yml", str "yaml")]
  match ext_map.find? (fun p => strEndsWith file_path p.1) with
  | some p => p.2
  | none => str "unknown"

/-- `CodeRabbitServer._assess_complexity`. -/
def assess_complexity (added removed : List Str) : Str :=
  let total_lines := added.length + removed.length
  if total_lines < 10 then str "low"
  else if total_lines < 50 then str "medium"
  else str "high"

/-- `CodeRabbitServer._generate_summary`. -/
def generate_summary (added removed : List Str) : Str :=
  if added = [] ∧ removed = [] then str "No changes detected"
  else if removed = [] then str "Added " ++ natToStr added.length ++ str " lines"
  else if added = [] then str "Removed " ++ natToStr removed.length ++ str " lines"
  else
    str "Modified: " ++ natToStr added.length ++ str " lines added, " ++
      natToStr removed.length ++ str " lines removed"

/-- Build one `CodeChange` the way both emission sites of
`CodeRabbitServer._parse_diff` do. -/
def mkCodeChange (file : Str) (ty : Str) (added removed : List Str) : CodeChange :=
  { file_path := file
    change_type := ty
    lines_added := added
    lines_removed := removed
    language := detect_language file
    complexity := assess_complexity added removed
    summary := generate_summary added removed }

/-- The local variables of the `_parse_diff` loop. -/
structure ParseState where
  current_file : Option Str
  current_type : Str
  added_lines : List Str
  removed_lines : List Str
  changes : List CodeChange
deriving DecidableEq

/-- Initial state of the `_parse_diff` loop. -/
def initParseState : ParseState :=
  { current_file := none
    current_type := str "modified"
    added_lines := []
    removed_lines := []
    changes := [] }

/-- `line.replace('+++ b/', '').replace('+++ a/', '')`. -/
def stripPathTokens (line : Str) : Str :=
  replaceAll (str "+++ a/") [] (replaceAll (str "+++ b/") [] line)

/-- One iteration of the `for line in diff_content.split('\n')` loop of
`_parse_diff`.  The guard `if current_file:` is Python truthiness: both
`None` and the empty string are falsy, so a record is emitted only when the
current file path is set and non-empty. -/
def parseStep (st : ParseState) (line : Str) : ParseState :=
  if strStartsWith line (str "diff --git") then
    match st.current_file with
    | some f =>
      if f ≠ [] then
        { st with
          changes := st.changes ++
            [mkCodeChange f st.current_type st.added_lines st.removed_lines]
          added_lines := []
          removed_lines := [] }
      else { st with added_lines := [], removed_lines := [] }
    | none => { st with added_lines := [], removed_lines := [] }
  else if strStartsWith line (str "+++") || strStartsWith line (str "---") then
    if strStartsWith line (str "+++") then
      { st with current_file := some (stripPathTokens line) }
    else st
  else if strStartsWith line (str "+") && !strStartsWith line (str "+++") then
    { st with added_lines := st.added_lines ++ [line.drop 1] }
  else if strStartsWith line (str "-") && !strStartsWith line (str "---") then
    { st with removed_lines := st.removed_lines ++ [line.drop 1] }
  else st

/-- Flush the trailing open file section, as the `# Add last file` block of
`_parse_diff` does; its guard is the same Python truthiness test
`if current_file:`, falsy for `None` and for the empty string. -/
def flushFinal (st : ParseState) : List CodeChange :=
  match st.current_file with
  | some f =>
    if f ≠ [] then
      st.changes ++ [mkCodeChange f st.current_type st.added_lines st.removed_lines]
    else st.changes
  | none => st.changes

/-- `CodeRabbitServer._parse_diff`. -/
def parse_diff (diff_content : Str) : List CodeChange :=
  flushFinal ((splitOnChar '\n' diff_content).foldl parseStep initParseState)

/-- One entry of the `changes` list built by
`CodeRabbitServer.structure_code_changes` (a Python dict; `snippets_added`
and `snippets_removed` stand for `code_snippets["added"]` /
`code_snippets["removed"]`). -/
structure StructuredChange where
  file_path : Str
  change_type : Str
  language : Str
  complexity : Str
  summary : Str
  lines_added : Nat
  lines_removed : Nat
  snippets_added : List Str
  snippets_removed : List Str
deriving DecidableEq

/-- The `analysis` dict built by `CodeRabbitServer._analyze_changes`;
`complexity_summary` is an insertion-ordered counter dict. -/
structure ChangeAnalysis where
  total_files : Nat
  total_lines_added : Nat
  total_lines_removed : Nat
  languages : List Str
  complexity_summary : List (Str × Nat)
deriving DecidableEq

/-- Insert-or-overwrite into an insertion-ordered dict (Python `d[k] = v`). -/
def dictInsert {α : Type} (d : List (Str × α)) (k : Str) (v : α) : List (Str × α) :=
  if d.any (fun p => p.1 = k) then
    d.map (fun p => if p.1 = k then (k, v) else p)
  else d ++ [(k, v)]

/-- Python `d.get(k)` on an insertion-ordered dict. -/
def dictGet {α : Type} (d : List (Str × α)) (k : Str) : Option α :=
  match d.find? (fun p => p.1 = k) with
  | some p => some p.2
  | none => none

/-- Increment a counter dict entry: `d[k] = d.get(k, 0) + 1`. -/
def dictIncr (d : List (Str × Nat)) (k : Str) : List (Str × Nat) :=
  dictInsert d k ((dictGet d k).getD 0 + 1)

/-- Python `list(set(xs))` keeping one representative per value; the exact
order of a CPython set is unspecified, we keep first-occurrence order. -/
def distinctList (xs : List Str) : List Str :=
  xs.foldl (fun acc x => if acc.contains x then acc else acc ++ [x]) []

/-- `CodeRabbitServer._analyze_changes`. -/
def analyze_changes (changes : List CodeChange) : ChangeAnalysis :=
  if changes = [] then
    { total_files := 0
      total_lines_added := 0
      total_lines_removed := 0
      languages := []
      complexity_summary := [] }
  else
    { total_files := changes.length
      total_lines_added := (changes.map (fun c => c.lines_added.length)).sum
      total_lines_removed := (changes.map (fun c => c.lines_removed.length)).sum
      languages := distinctList (changes.map (fun c => c.language))
      complexity_summary :=
        changes.foldl (fun d c => dictIncr d c.complexity) [] }

/-- The return value of `CodeRabbitServer.structure_code_changes`. -/
structure StructuredChanges where
  total_changes : Nat
  changes : List StructuredChange
  analysis : ChangeAnalysis
deriving DecidableEq

/-- The per-change dict built inside `structure_code_changes`
(`code_snippets.added` keeps only the first 10 added lines, likewise for
removed lines). -/
def structureOne (change : CodeChange) : StructuredChange :=
  { file_path := change.file_path
    change_type := change.change_type
    language := change.language
    complexity := change.complexity
    summary := change.summary
    lines_added := change.lines_added.length
    lines_removed := change.lines_removed.length
    snippets_added := change.lines_added.take 10
    snippets_removed := change.lines_removed.take 10 }

/-- `CodeRabbitServer.structure_code_changes`. -/
def structure_code_changes (diff_content : Str) : StructuredChanges :=
  let changes := parse_diff diff_content
  { total_changes := changes.length
    changes := changes.map structureOne
    analysis := analyze_changes changes }

/-! ## Daytona server (`src/mcp_servers/daytona_server.py`) -/

/-- The `ExecutionResult` dataclass of `daytona_server.py` (the
`execution_time` field is never assigned anywhere in the repository and is
omitted). -/
structure ExecutionResult where
  success : Bool
  exit_code : Int
  output : Str
  error : Option Str
deriving DecidableEq

/-- Outcome of one remote `sandbox.process.code_run` / `sandbox.process.exec`
call: either a response carrying `exit_code` and `result` (`result` may be
`None`), or a raised exception with its rendered message `str(e)`. -/
inductive RunOutcome where
  | resp (exit_code : Int) (result : Option Str)
  | exn (message : Str)
deriving DecidableEq

/-- Environment of `DaytonaServer` over an abstract sandbox handle type `σ`:
`create` is the outcome of `self.daytona.create()` (`none` covers both a
missing client and a raised exception, which `create_sandbox` turns into
`False`); `code_run`/`exec_run` are the two remote execution entry points. -/
structure DaytonaEnv (σ : Type) where
  create : Option σ
  code_run : σ → Str → RunOutcome
  exec_run : σ → Str → RunOutcome

/-- `DaytonaServer.execute_code`, threading the `self.sandbox` field
explicitly.  Mirrors: lazy sandbox creation with the fixed failure result,
the `python` / other-language dispatch, the success/exit-code bookkeeping,
and the catch-all exception handler. -/
def execute_code {σ : Type} (env : DaytonaEnv σ) (sandbox : Option σ)
    (code : Str) (language : Str) : Option σ × ExecutionResult :=
  let acquired : Option σ :=
    match sandbox with
    | some sb => some sb
    | none => env.create
  match acquired with
  | none =>
    (none,
     { success := false
       exit_code := -1
       output := []
       error := some (str "Failed to create sandbox") })
  | some sb =>
    let outcome :=
      if language = str "python" then env.code_run sb code else env.exec_run sb code
    match outcome with
    | RunOutcome.resp ec res =>
      (some sb,
       { success := ec = 0
         exit_code := ec
         output := res.getD []
         error := if ec = 0 then none else res })
    | RunOutcome.exn msg =>
      (some sb,
       { success := false
         exit_code := -1
         output := []
         error := some msg })

/-- A snippet dict as built by `MCPOrchestrator._extract_code_snippets`
(all four keys are always present there, so they are plain fields). -/
structure Snippet where
  id : Str
  code : Str
  language : Str
  source : Str
deriving DecidableEq

/-- The loop of `DaytonaServer.execute_code_snippets`, generalized over the
starting accumulator (sandbox state, results dict) so that it can be
reasoned about by induction. -/
def execute_snippets_fold {σ : Type} (env : DaytonaEnv σ)
    (acc : Option σ × List (Str × ExecutionResult)) (code_snippets : List Snippet) :
    Option σ × List (Str × ExecutionResult) :=
  code_snippets.foldl
    (fun acc snippet =>
      let out := execute_code env acc.1 snippet.code snippet.language
      (out.1, dictInsert acc.2 snippet.id out.2))
    acc

/-- `DaytonaServer.execute_code_snippets`: run every snippet, threading the
lazily-created sandbox, collecting results into an id-keyed dict. -/
def execute_code_snippets {σ : Type} (env : DaytonaEnv σ) (sandbox : Option σ)
    (code_snippets : List Snippet) : Option σ × List (Str × ExecutionResult) :=
  execute_snippets_fold env (sandbox, []) code_snippets

/-- Python `min(a, b)` on scores. -/
def pyMin (a b : ℚ) : ℚ := if a ≤ b then a else b

/-- Python `max(a, b)` on scores. -/
def pyMax (a b : ℚ) : ℚ := if a ≤ b then b else a

/-! ## Galileo server (`src/mcp_servers/galileo_server.py`)

The float constants of the evaluator (`0.8`, `0.05`, ...) are written as the
decimal rationals they denote. -/

/-- The `EvaluationResult` dataclass of `galileo_server.py`, with the float
scores as exact rationals. -/
structure EvaluationResult where
  accuracy_score : ℚ
  tone_score : ℚ
  clarity_score : ℚ
  overall_score : ℚ
  feedback : List Str
  issues : List Str
deriving DecidableEq

/-- One entry of the formatted execution-result list built by
`MCPOrchestrator._execute_code_snippets`; this is what the evaluator
receives as `code_snippets`.  `execution_result` is `None` exactly when the
executor returned no result for the snippet's id. -/
structure FormattedResult where
  id : Str
  code : Str
  language : Str
  execution_result : Option ExecutionResult
deriving DecidableEq

/-- `GalileoServer._evaluate_accuracy` (`code_context` is accepted and
ignored, exactly as in the source). -/
def evaluate_accuracy (documentation : Str) (_code_context : Option Str)
    (code_snippets : Option (List FormattedResult)) : ℚ :=
  let score : ℚ := 4/5
  let score :=
    (code_snippets.getD []).foldl
      (fun sc snippet =>
        match snippet.execution_result with
        | some er => if er.success then sc + 1/20 else sc - 1/10
        | none => sc)
      score
  let score :=
    if containsSub (str "```") documentation ||
        containsSub (str "code") (pyLower documentation) then
      score + 1/20
    else score
  pyMin 1 (pyMax 0 score)

/-- `GalileoServer._evaluate_tone`. -/
def evaluate_tone (documentation : Str) : ℚ :=
  let professional_words :=
    [str "function", str "method", str "parameter", str "returns", str "example"]
  let unprofessional_words := [str "gonna", str "wanna", str "kinda", str "yeah"]
  let doc_lower := pyLower documentation
  let score : ℚ := 7/10
  let score :=
    professional_words.foldl
      (fun sc w => if containsSub w doc_lower then sc + 1/50 else sc) score
  let score :=
    unprofessional_words.foldl
      (fun sc w => if containsSub w doc_lower then sc - 1/20 else sc) score
  pyMin 1 (pyMax 0 score)

/-- `GalileoServer._evaluate_clarity`. -/
def evaluate_clarity (documentation : Str) : ℚ :=
  let score : ℚ := 7/10
  let score :=
    if containsSub (str "# ") documentation ||
        containsSub (str "## ") documentation then
      score + 1/10
    else score
  let score :=
    if containsSub (str "example") (pyLower documentation) ||
        containsSub (str "```") documentation then
      score + 1/10
    else score
  let word_count := wordCount documentation
  let score := if 50 ≤ word_count ∧ word_count ≤ 1000 then score + 1/20 else score
  pyMin 1 (pyMax 0 score)

/-- `GalileoServer.evaluate_documentation`. -/
def evaluate_documentation (documentation : Str) (code_context : Option Str)
    (code_snippets : Option (List FormattedResult)) : EvaluationResult :=
  let accuracy_score := evaluate_accuracy documentation code_context code_snippets
  let tone_score := evaluate_tone documentation
  let clarity_score := evaluate_clarity documentation
  let overall_score := (accuracy_score + tone_score + clarity_score) / 3
  let feedback : List Str :=
    (if accuracy_score < 7/10 then [str "Review code examples for correctness"] else []) ++
    (if tone_score < 7/10 then [str "Consider making the tone more professional and clear"] else []) ++
    (if clarity_score < 7/10 then [str "Add more examples and explanations"] else [])
  let issues : List Str :=
    (if accuracy_score < 7/10 then [str "Documentation may contain inaccuracies"] else []) ++
    (if tone_score < 7/10 then [str "Tone may not be appropriate"] else []) ++
    (if clarity_score < 7/10 then [str "Documentation clarity could be improved"] else [])
  { accuracy_score := accuracy_score
    tone_score := tone_score
    clarity_score := clarity_score
    overall_score := overall_score
    feedback := feedback
    issues := issues }

/-! ## Orchestrator (`src/orchestrator.py`) -/

/-- Longest leading run of regex word characters (`\w`, ASCII fragment),
used to match the `(\w+)?` language group of the fenced-code-block
pattern. -/
def takeWordChars : Str → Str × Str
  | [] => ([], [])
  | c :: s =>
    if c.isAlphanum || c = '_' then
      let rest := takeWordChars s
      (c :: rest.1, rest.2)
    else ([], c :: s)

/-- Scan for the earliest closing fence, returning the content before it and
the text after it (the lazy `(.*?)` of the block pattern). -/
def findClose (acc : Str) (s : Str) : Option (Str × Str) :=
  match s with
  | [] => none
  | c :: rest =>
    if strStartsWith s (str "```") then some (acc.reverse, s.drop 3)
    else findClose (c :: acc) rest

/-- Fuel-driven scanner equivalent to
`re.findall(r'^```(\w+)?\n(.*?)```$', documentation, re.DOTALL)` (pattern
quoted loosely): at each position try to match an opening fence, the
optional language word, a newline, then the lazily matched body up to the
earliest closing fence; on failure advance one character, exactly like the
regex engine restarting at the next index.  Fuel is an upper bound on the
remaining length; each step consumes at least one character. -/
def findBlocksAux : Nat → Str → List (Str × Str)
  | 0, _ => []
  | _ + 1, [] => []
  | fuel + 1, c :: rest =>
    if strStartsWith (c :: rest) (str "```") then
      let afterTicks := (c :: rest).drop 3
      let lang_rest := takeWordChars afterTicks
      match lang_rest.2 with
      | '\n' :: body =>
        match findClose [] body with
        | some code_remaining =>
          (lang_rest.1, code_remaining.1) :: findBlocksAux fuel code_remaining.2
        | none => findBlocksAux fuel rest
      | _ => findBlocksAux fuel rest
    else findBlocksAux fuel rest

/-- All fenced code blocks of the documentation, as (language, body) pairs,
matching `re.findall(...)` in `_extract_code_snippets`. -/
def findBlocks (documentation : Str) : List (Str × Str) :=
  findBlocksAux documentation.length documentation

/-- The snippets extracted from markdown code blocks (first loop of
`MCPOrchestrator._extract_code_snippets`); an empty language group falls
back to `'python'` via `lang or 'python'`. -/
def docSnippets (documentation : Str) : List Snippet :=
  (findBlocks documentation).enum.map fun ic =>
    { id := str "snippet_" ++ natToStr ic.1
      code := pyStrip ic.2.2
      language := if ic.2.1 = [] then str "python" else ic.2.1
      source := str "documentation" }

/-- The synthetic snippets from structured changes (second loop of
`_extract_code_snippets`): one per change with non-empty
`code_snippets['added']`, joining the first 20 of those stored lines. -/
def changeSnippets (changes : List StructuredChange) : List Snippet :=
  changes.filterMap fun change =>
    if change.snippets_added ≠ [] then
      some
        { id := str "change_" ++ change.file_path
          code := joinNL (change.snippets_added.take 20)
          language := change.language
          source := str "code_change" }
    else none

/-- `MCPOrchestrator._extract_code_snippets`. -/
def extract_code_snippets (documentation : Str) (structured_changes : StructuredChanges) :
    List Snippet :=
  docSnippets documentation ++ changeSnippets structured_changes.changes

/-- Formatting step of `MCPOrchestrator._execute_code_snippets`: pair each
snippet with the id-keyed result returned by the executor (`None` when the
dict has no entry for the id). -/
def format_execution_results (code_snippets : List Snippet)
    (results : List (Str × ExecutionResult)) : List FormattedResult :=
  code_snippets.map fun snippet =>
    { id := snippet.id
      code := snippet.code
      language := snippet.language
      execution_result := dictGet results snippet.id }

/-- The Gemini collaborator: `hasClient` is whether `config.gemini_api_key`
was set (so `self.gemini_client` is not `None`); `generate` is
`generate_content` on a prompt, `none` meaning the call raised. -/
structure GeminiEnv where
  hasClient : Bool
  generate : Str → Option Str

/-- All external collaborators of one `MCPOrchestrator` instance.  `dumps`
and `dumps_indent` stand for `json.dumps(structured_changes)` and
`json.dumps(structured_changes, indent=2)`: opaque serializations whose text
only ever flows into prompts and into the evaluator's ignored
`code_context` argument. -/
structure OrchestratorEnv (σ : Type) where
  gemini : GeminiEnv
  daytona : DaytonaEnv σ
  dumps : StructuredChanges → Str
  dumps_indent : StructuredChanges → Str

/-- The two configuration values the orchestrator reads
(`config.min_doc_quality_score`, `config.max_self_correction_attempts`). -/
structure OrchestratorConfig where
  min_doc_quality_score : ℚ
  max_self_correction_attempts : Nat

/-- The `DocumentationUpdate` dataclass of `orchestrator.py`. -/
structure DocumentationUpdate where
  file_path : Str
  content : Str
  code_snippets : List FormattedResult
  evaluation_score : ℚ
  ready_to_commit : Bool
deriving DecidableEq

/-- One outbound collaborator call of a pipeline run, recorded in order:
a drafting step, a revision call to Gemini inside the self-correction loop,
a batch snippet execution, or an evaluation (with its argument triple and
returned result). -/
inductive CallEvent where
  | draftCall (prompt : Str)
  | revisionCall (documentation : Str) (evaluation : EvaluationResult)
  | executeCall (code_snippets : List Snippet)
  | evaluateCall (documentation : Str) (code_context : Str)
      (code_snippets : List FormattedResult) (result : EvaluationResult)
deriving DecidableEq

/-- `MCPOrchestrator._create_documentation_prompt`. -/
def create_documentation_prompt (env_dump : Str) : Str :=
  str "You are a technical documentation expert. Generate clear, accurate documentation for the following code changes:\n\n" ++
  env_dump ++
  str "\n\nRequirements:\n1. Write clear, professional documentation\n2. Include code examples where relevant\n3. Explain what changed and why\n4. Use proper markdown formatting\n5. Include code snippets in markdown code blocks\n\nGenerate the documentation:"

/-- Render a score with two decimals, approximating CPython's `f'{x:.2f}'`
on the non-negative scores that reach it (prompt text only; no theorem
depends on the exact rendering). -/
def formatScore2 (q : ℚ) : Str :=
  let hundredths := (q * 100 + 1/2).floor.toNat
  natToStr (hundredths / 100) ++ str "." ++
    natToStr (hundredths % 100 / 10) ++ natToStr (hundredths % 10)

/-- The correction prompt built inside `MCPOrchestrator._self_correct`. -/
def create_correction_prompt (documentation : Str) (evaluation : EvaluationResult) : Str :=
  str "The following documentation was evaluated and received a score of " ++
  formatScore2 evaluation.overall_score ++
  str ".\n\nIssues identified:\n" ++ joinNL evaluation.issues ++
  str "\n\nFeedback:\n" ++ joinNL evaluation.feedback ++
  str "\n\nOriginal documentation:\n" ++ documentation ++
  str "\n\nPlease revise the documentation to address these issues. Generate improved documentation:"

/-- `MCPOrchestrator._fallback_documentation`. -/
def fallback_documentation (structured_changes : StructuredChanges) : Str :=
  let doc_lines :=
    [str "# Documentation Update\n"] ++
    (structured_changes.changes.map fun change =>
      [str "## " ++ change.file_path ++ str "\n",
       str "**Change Type:** " ++ change.change_type ++ str "\n",
       str "**Summary:** " ++ change.summary ++ str "\n",
       str "**Language:** " ++ change.language ++ str "\n"] ++
      (if change.snippets_added ≠ [] then
        [str "\n### Added Code\n```",
         joinNL (change.snippets_added.take 5),
         str "```\n"]
      else [])).flatten
  joinNL doc_lines

/-- `MCPOrchestrator._draft_documentation`: ask Gemini when a client exists,
fall back to the templated rendering when the client is missing or the call
raises. -/
def draft_documentation {σ : Type} (env : OrchestratorEnv σ)
    (structured_changes : StructuredChanges) : Str :=
  let prompt := create_documentation_prompt (env.dumps_indent structured_changes)
  if env.gemini.hasClient then
    match env.gemini.generate prompt with
    | some text => text
    | none => fallback_documentation structured_changes
  else fallback_documentation structured_changes

/-- The body of the `while` loop of `MCPOrchestrator._self_correct`, with
`fuel = max_attempts - attempts` making the Python loop counter explicit.
On each pass with a failing score: issue the revision call (when a Gemini
client exists), break on a raised revision call keeping the current pair,
otherwise re-evaluate the (possibly unchanged) documentation against the
same `execution_results` the loop was entered with. -/
def self_correct_loop {σ : Type} (env : OrchestratorEnv σ) (cfg : OrchestratorConfig)
    (structured_changes : StructuredChanges) :
    Nat → Str → EvaluationResult → List FormattedResult →
    Str × EvaluationResult × List CallEvent
  | 0, documentation, evaluation, _ => (documentation, evaluation, [])
  | fuel + 1, documentation, evaluation, execution_results =>
    if evaluation.overall_score < cfg.min_doc_quality_score then
      if env.gemini.hasClient then
        match env.gemini.generate (create_correction_prompt documentation evaluation) with
        | some revised =>
          let ctx := env.dumps structured_changes
          let evaluation' := evaluate_documentation revised (some ctx) (some execution_results)
          let out := self_correct_loop env cfg structured_changes fuel revised evaluation' execution_results
          (out.1, out.2.1,
            CallEvent.revisionCall documentation evaluation ::
            CallEvent.evaluateCall revised ctx execution_results evaluation' :: out.2.2)
        | none =>
          (documentation, evaluation, [CallEvent.revisionCall documentation evaluation])
      else
        let ctx := env.dumps structured_changes
        let evaluation' := evaluate_documentation documentation (some ctx) (some execution_results)
        let out := self_correct_loop env cfg structured_changes fuel documentation evaluation' execution_results
        (out.1, out.2.1,
          CallEvent.evaluateCall documentation ctx execution_results evaluation' :: out.2.2)
    else (documentation, evaluation, [])

/-- `MCPOrchestrator._self_correct`. -/
def self_correct {σ : Type} (env : OrchestratorEnv σ) (cfg : OrchestratorConfig)
    (documentation : Str) (structured_changes : StructuredChanges)
    (evaluation : EvaluationResult) (execution_results : List FormattedResult) :
    Str × EvaluationResult × List CallEvent :=
  self_correct_loop env cfg structured_changes cfg.max_self_correction_attempts
    documentation evaluation execution_results

/-- `MCPOrchestrator._determine_doc_path`. -/
def determine_doc_path (structured_changes : StructuredChanges) : Str :=
  match structured_changes.changes with
  | [] => str "README.md"
  | first :: _ =>
    if containsSub (str "/") first.file_path then
      joinWith '/' ((splitOnChar '/' first.file_path).dropLast) ++
        str "/DOCUMENTATION.md"
    else str "DOCUMENTATION.md"

/-- The placeholder `DocumentationUpdate` returned when the structured
change list is empty. -/
def empty_changes_update : DocumentationUpdate :=
  { file_path := str "DOCUMENTATION.md"
    content := str "# Documentation\n\nNo code changes detected to document."
    code_snippets := []
    evaluation_score := 1/2
    ready_to_commit := false }

/-- `MCPOrchestrator.process_code_changes`, returning the update (or the
`ValueError` message for a blank diff) together with the ordered trace of
collaborator calls.  The Daytona sandbox starts unset, as after
`DaytonaServer._initialize`. -/
def process_code_changes {σ : Type} (env : OrchestratorEnv σ) (cfg : OrchestratorConfig)
    (diff_content : Str) : Except Str DocumentationUpdate × List CallEvent :=
  if pyBlank diff_content then (Except.error (str "Diff content is empty"), [])
  else
    let structured_changes := structure_code_changes diff_content
    if structured_changes.changes = [] then (Except.ok empty_changes_update, [])
    else
      let documentation := draft_documentation env structured_changes
      let draftPrompt := create_documentation_prompt (env.dumps_indent structured_changes)
      let code_snippets := extract_code_snippets documentation structured_changes
      let results := (execute_code_snippets env.daytona none code_snippets).2
      let execution_results := format_execution_results code_snippets results
      let ctx := env.dumps structured_changes
      let evaluation := evaluate_documentation documentation (some ctx) (some execution_results)
      let corrected :=
        if evaluation.overall_score < cfg.min_doc_quality_score then
          self_correct env cfg documentation structured_changes evaluation execution_results
        else (documentation, evaluation, [])
      let trace :=
        CallEvent.draftCall draftPrompt ::
        CallEvent.executeCall code_snippets ::
        CallEvent.evaluateCall documentation ctx execution_results evaluation ::
        corrected.2.2
      (Except.ok
        { file_path := determine_doc_path structured_changes
          content := corrected.1
          code_snippets := execution_results
          evaluation_score := corrected.2.1.overall_score
          ready_to_commit := cfg.min_doc_quality_score ≤ corrected.2.1.overall_score }
      , trace)

/-! ## Derived definitions used by the specification statements -/

/-- `ParseState` pending-section flush: the record emitted for the open file
section, if any (the shape shared by the `diff --git` branch and the
end-of-input flush of `_parse_diff`, both guarded by the truthiness test
`if current_file:`, which is falsy for `None` and for the empty string). -/
def flushPending (st : ParseState) : List CodeChange :=
  match st.current_file with
  | some f =>
    if f ≠ [] then [mkCodeChange f st.current_type st.added_lines st.removed_lines]
    else []
  | none => []

/-- A well-formed `diff --git` file section, split around its `+++` path
marker line: the header line, the body lines before the marker, the marker
itself, and the body lines after it. -/
structure DiffSection where
  header : Str
  pre : List Str
  path_line : Str
  post : List Str
deriving DecidableEq

/-- All raw lines of a section. -/
def sectionLines (s : DiffSection) : List Str :=
  s.header :: (s.pre ++ [s.path_line] ++ s.post)

/-- A body line of a well-formed section: not a new section header and not a
second path marker. -/
def bodyLineOk (l : Str) : Bool :=
  !strStartsWith l (str "diff --git") && !strStartsWith l (str "+++")

/-- Well-formedness of one diff section: a real header, a `+++` path-marker
line whose stripped path is non-empty (`if current_file:` treats an empty
path as no file at all), and body lines that are neither headers nor
further `+++` markers. -/
def goodSection (s : DiffSection) : Prop :=
  strStartsWith s.header (str "diff --git") = true ∧
  strStartsWith s.path_line (str "+++") = true ∧
  stripPathTokens s.path_line ≠ [] ∧
  ∀ l ∈ s.pre ++ s.post, bodyLineOk l = true

instance (s : DiffSection) : Decidable (goodSection s) := by
  unfold goodSection; infer_instance

/-- The added-line content a body line contributes (the `+`-branch condition
of the parser). -/
def addOf (l : Str) : Option Str :=
  if strStartsWith l (str "+") && !strStartsWith l (str "+++") then some (l.drop 1)
  else none

/-- The removed-line content a body line contributes (the `-`-branch
condition of the parser). -/
def remOf (l : Str) : Option Str :=
  if strStartsWith l (str "-") && !strStartsWith l (str "---") then some (l.drop 1)
  else none

/-- The `CodeChange` a well-formed section should produce: its own path
(stripped of the VCS prefix tokens) and exactly its own `+`/`-` content
lines. -/
def sectionChange (s : DiffSection) : CodeChange :=
  mkCodeChange (stripPathTokens s.path_line) (str "modified")
    ((s.pre ++ s.post).filterMap addOf)
    ((s.pre ++ s.post).filterMap remOf)

/-- The fixed result `execute_code` returns when no sandbox exists and none
can be created. -/
def sandbox_failure_result : ExecutionResult :=
  { success := false
    exit_code := -1
    output := []
    error := some (str "Failed to create sandbox") }

/-- Number of revision (Gemini correction) calls recorded in a trace. -/
def revisionCount (trace : List CallEvent) : Nat :=
  (trace.filter fun e =>
    match e with
    | CallEvent.revisionCall _ _ => true
    | _ => false).length

/-- Overall score of the first evaluation call of a trace, if any. -/
def firstEvalScore (trace : List CallEvent) : Option ℚ :=
  trace.findSome? fun e =>
    match e with
    | CallEvent.evaluateCall _ _ _ r => some r.overall_score
    | _ => none

/-- The (documentation, execution results) argument pair of an evaluation
call event. -/
def evalDocResults : CallEvent → Option (Str × List FormattedResult)
  | CallEvent.evaluateCall d _ rs _ => some (d, rs)
  | _ => none

/-- Check that an event is compatible with self-correction never touching
the executor: evaluation calls must use exactly the execution results the
loop was entered with, and batch-execution calls must not occur at all. -/
def staleOk (execution_results : List FormattedResult) : CallEvent → Bool
  | CallEvent.evaluateCall _ _ rs _ => rs = execution_results
  | CallEvent.executeCall _ => false
  | _ => true

/-- What pipeline steps 3 (extract + execute + pair) would produce for a
given documentation text against a fresh sandbox: the freshly produced
execution results for that documentation. -/
def fresh_execution_for {σ : Type} (env : OrchestratorEnv σ) (documentation : Str)
    (structured_changes : StructuredChanges) : List FormattedResult :=
  let code_snippets := extract_code_snippets documentation structured_changes
  format_execution_results code_snippets
    (execute_code_snippets env.daytona none code_snippets).2

/-! ## Concrete instances used by counterexamples and witnesses -/

/-- A sandbox service that always answers: every execution succeeds and
echoes the code as its output. -/
def echo_daytona : DaytonaEnv Unit :=
  { create := some ()
    code_run := fun _ code => RunOutcome.resp 0 (some code)
    exec_run := fun _ code => RunOutcome.resp 0 (some code) }

/-- First draft produced by the concrete Gemini stand-in: one fenced python
block. -/
def c1_doc0 : Str := str "```python\nprint(1)\n```"

/-- Revised draft produced by the concrete Gemini stand-in: no code blocks
at all. -/
def c1_doc1 : Str := str "no code here"

/-- Concrete collaborators: Gemini answers the drafting prompt with
`c1_doc0` and any correction prompt with `c1_doc1`; the sandbox echoes. -/
def c1_env : OrchestratorEnv Unit :=
  { gemini :=
      { hasClient := true
        generate := fun prompt =>
          if strStartsWith prompt (str "You are a technical") then some c1_doc0
          else some c1_doc1 }
    daytona := echo_daytona
    dumps := fun _ => str "ctx"
    dumps_indent := fun _ => str "ctx" }

/-- Threshold 0.9 forces one self-correction iteration on the run above. -/
def c1_cfg : OrchestratorConfig :=
  { min_doc_quality_score := 9/10, max_self_correction_attempts := 1 }

/-- A one-file diff adding one python line. -/
def c1_diff : Str := str "diff --git a/x b/x\n+++ b/x.py\n+print(1)"

/-- The execution results produced for the first draft `c1_doc0` — the list
the evaluator keeps being fed during self-correction. -/
def c1_results : List FormattedResult :=
  fresh_execution_for c1_env c1_doc0 (structure_code_changes c1_diff)

/-- An orchestrator whose collaborators are all absent: no Gemini client,
no sandbox, empty serializations. -/
def plain_env : OrchestratorEnv Unit :=
  { gemini := { hasClient := false, generate := fun _ => none }
    daytona :=
      { create := none
        code_run := fun _ _ => RunOutcome.resp 0 none
        exec_run := fun _ _ => RunOutcome.resp 0 none }
    dumps := fun _ => []
    dumps_indent := fun _ => [] }

/-- The default configuration (`MIN_DOC_QUALITY_SCORE=0.7`,
`MAX_SELF_CORRECTION_ATTEMPTS=3`). -/
def plain_cfg : OrchestratorConfig :=
  { min_doc_quality_score := 7/10, max_self_correction_attempts := 3 }

/-- A configuration with threshold 0.5 — allowed by the documented range
`[0,1]` — under which the placeholder update breaks the readiness
equivalence. -/
def half_cfg : OrchestratorConfig :=
  { min_doc_quality_score := 1/2, max_self_correction_attempts := 3 }

/-- A non-blank diff whose parse yields no change records. -/
def word_diff : Str := str "hello"

/-- A one-header diff section with content but no `+++` path marker line. -/
def c4_diff : Str := str "diff --git a/x b/x\n+hello"

/-- A well-formed two-section diff used to instantiate the section theorem. -/
def c4_sec1 : DiffSection :=
  { header := str "diff --git a/a.py b/a.py"
    pre := [str "--- a/a.py"]
    path_line := str "+++ b/a.py"
    post := [str "@@ -1 +1 @@", str "+x = 1", str "-y = 2"] }

/-- Second section of the well-formed witness diff. -/
def c4_sec2 : DiffSection :=
  { header := str "diff --git a/d/b.md b/d/b.md"
    pre := []
    path_line := str "+++ b/d/b.md"
    post := [str "+hi"] }

/-- The concatenated text of the two witness sections. -/
def c4_good_diff : Str :=
  joinNL ((([c4_sec1, c4_sec2].map sectionLines).flatten))

/-- A diff adding fifteen lines to one file. -/
def c5_diff : Str :=
  str "diff --git a/x b/x\n+++ b/x.py\n+l01\n+l02\n+l03\n+l04\n+l05\n+l06\n+l07\n+l08\n+l09\n+l10\n+l11\n+l12\n+l13\n+l14\n+l15"

/-- Two snippets with distinct ids for the executor witness. -/
def c7_snippets : List Snippet :=
  [{ id := str "snippet_0", code := str "print(1)", language := str "python",
     source := str "documentation" },
   { id := str "change_x.py", code := str "x = 1", language := str "python",
     source := str "code_change" }]

/-- A sandbox service whose creation always fails. -/
def failing_daytona : DaytonaEnv Unit :=
  { create := none
    code_run := fun _ _ => RunOutcome.resp 0 none
    exec_run := fun _ _ => RunOutcome.resp 0 none }

/-! ## Theorems -/

theorem clamp_mem_unit (x : ℚ) : 0 ≤ pyMin 1 (pyMax 0 x) ∧ pyMin 1 (pyMax 0 x) ≤ 1 := by
  unfold pyMin pyMax
  split_ifs <;> constructor <;> linarith

/-- Claim C6: for every documentation string, code context and
execution-result list passed to the evaluator, the returned
`EvaluationResult` has `overall_score` equal to the arithmetic mean of the
accuracy, tone and clarity sub-scores, and each sub-score lies in `[0,1]`. -/
theorem C6_overall_is_mean_of_bounded_subscores (documentation : Str)
    (code_context : Option Str) (code_snippets : Option (List FormattedResult)) :
    (evaluate_documentation documentation code_context code_snippets).overall_score =
      ((evaluate_documentation documentation code_context code_snippets).accuracy_score +
        (evaluate_documentation documentation code_context code_snippets).tone_score +
        (evaluate_documentation documentation code_context code_snippets).clarity_score) / 3 ∧
    (0 ≤ (evaluate_documentation documentation code_context code_snippets).accuracy_score ∧
      (evaluate_documentation documentation code_context code_snippets).accuracy_score ≤ 1) ∧
    (0 ≤ (evaluate_documentation documentation code_context code_snippets).tone_score ∧
      (evaluate_documentation documentation code_context code_snippets).tone_score ≤ 1) ∧
    (0 ≤ (evaluate_documentation documentation code_context code_snippets).clarity_score ∧
      (evaluate_documentation documentation code_context code_snippets).clarity_score ≤ 1) := by
  refine ⟨rfl, ?_, ?_, ?_⟩
  · obtain ⟨x, hx⟩ :
        ∃ x, (evaluate_documentation documentation code_context code_snippets).accuracy_score =
          pyMin 1 (pyMax 0 x) := ⟨_, rfl⟩
    rw [hx]; exact clamp_mem_unit x
  · obtain ⟨x, hx⟩ :
        ∃ x, (evaluate_documentation documentation code_context code_snippets).tone_score =
          pyMin 1 (pyMax 0 x) := ⟨_, rfl⟩
    rw [hx]; exact clamp_mem_unit x
  · obtain ⟨x, hx⟩ :
        ∃ x, (evaluate_documentation documentation code_context code_snippets).clarity_score =
          pyMin 1 (pyMax 0 x) := ⟨_, rfl⟩
    rw [hx]; exact clamp_mem_unit x

theorem parseStep_type_invariant (st : ParseState) (line : Str)
    (hty : st.current_type = str "modified")
    (hch : ∀ c ∈ st.changes, c.change_type = str "modified") :
    (parseStep st line).current_type = str "modified" ∧
    ∀ c ∈ (parseStep st line).changes, c.change_type = str "modified" := by
  obtain ⟨cf, ty, a, r, ch⟩ := st
  simp only at hty hch
  subst hty
  unfold parseStep
  rcases cf with _ | f <;> split_ifs <;> simp_all [mkCodeChange]
  all_goals aesop

theorem parseFold_type_invariant (lines : List Str) :
    ∀ (st : ParseState), st.current_type = str "modified" →
      (∀ c ∈ st.changes, c.change_type = str "modified") →
      (List.foldl parseStep st lines).current_type = str "modified" ∧
      ∀ c ∈ (List.foldl parseStep st lines).changes, c.change_type = str "modified" := by
  induction lines with
  | nil => intro st h1 h2; exact ⟨h1, h2⟩
  | cons l ls ih =>
    intro st h1 h2
    obtain ⟨h1', h2'⟩ := parseStep_type_invariant st l h1 h2
    exact ih _ h1' h2'

/-- Claim C10: every `CodeChange` produced by `_parse_diff` has
`change_type = "modified"`: the parser initializes `current_type` to
`"modified"` and never reassigns it, so the declared enum values `"added"`
and `"deleted"` are never produced, whatever the diff contains. -/
theorem C10_change_type_always_modified (diff_content : Str) (c : CodeChange)
    (hc : c ∈ parse_diff diff_content) :
    c.change_type = str "modified" ∧
    c.change_type ≠ str "added" ∧ c.change_type ≠ str "deleted" := by
  have hmain : c.change_type = str "modified" := by
    have hinv := parseFold_type_invariant (splitOnChar '\n' diff_content) initParseState
      rfl (by intro c hmem; simp [initParseState] at hmem)
    unfold parse_diff flushFinal at hc
    set st := List.foldl parseStep initParseState (splitOnChar '\n' diff_content) with hst
    rcases hcf : st.current_file with _ | f
    · rw [hcf] at hc
      exact hinv.2 c hc
    · rw [hcf] at hc
      by_cases hf : f = []
      · simp only [hf, ne_eq, not_true_eq_false, if_false] at hc
        exact hinv.2 c hc
      · simp only [ne_eq, hf, not_false_eq_true, if_true] at hc
        rcases List.mem_append.mp hc with hmem | hmem
        · exact hinv.2 c hmem
        · simp only [List.mem_singleton] at hmem
          subst hmem
          simp [mkCodeChange, hinv.1]
  refine ⟨hmain, ?_, ?_⟩
  · rw [hmain]; decide
  · rw [hmain]; decide

/-- Witness for C10: the one-file diff `c1_diff` parses to a record, and the
theorem applies to it. -/
theorem C10_change_type_witness :
    (mkCodeChange (str "x.py") (str "modified") [str "print(1)"] []) ∈ parse_diff c1_diff ∧
    ((mkCodeChange (str "x.py") (str "modified") [str "print(1)"] []).change_type
        = str "modified" ∧
      (mkCodeChange (str "x.py") (str "modified") [str "print(1)"] []).change_type ≠ str "added" ∧
      (mkCodeChange (str "x.py") (str "modified") [str "print(1)"] []).change_type ≠ str "deleted") :=
  ⟨by decide, C10_change_type_always_modified c1_diff _ (by decide)⟩

theorem process_ok_of_nonblank {σ : Type} (env : OrchestratorEnv σ)
    (cfg : OrchestratorConfig) (diff_content : Str) (h : pyBlank diff_content = false) :
    ∃ u trace, process_code_changes env cfg diff_content = (Except.ok u, trace) := by
  simp only [process_code_changes, h, Bool.false_eq_true, if_false]
  split_ifs <;> exact ⟨_, _, rfl⟩

/-- Claim C9: `process_code_changes` reports the input error exactly when
the diff is empty or all-whitespace; in that case the collaborator-call
trace is empty (no partial work), and for every other input the pipeline
returns a `DocumentationUpdate` rather than propagating a failure. -/
theorem C9_input_error_iff_blank {σ : Type} (env : OrchestratorEnv σ)
    (cfg : OrchestratorConfig) (diff_content : Str) :
    ((process_code_changes env cfg diff_content).1 =
        Except.error (str "Diff content is empty") ↔ pyBlank diff_content = true) ∧
    (pyBlank diff_content = true → (process_code_changes env cfg diff_content).2 = []) ∧
    (pyBlank diff_content = false →
      ∃ u, (process_code_changes env cfg diff_content).1 = Except.ok u) := by
  by_cases h : pyBlank diff_content
  · refine ⟨⟨fun _ => h, fun _ => ?_⟩, fun _ => ?_, fun hfalse => by simp [h] at hfalse⟩ <;>
      simp [process_code_changes, h]
  · have h' : pyBlank diff_content = false := by simpa using h
    obtain ⟨u, trace, hu⟩ := process_ok_of_nonblank env cfg diff_content h'
    refine ⟨⟨fun habs => ?_, fun htrue => by simp [htrue] at h'⟩,
      fun htrue => by simp [htrue] at h', fun _ => ⟨u, by rw [hu]⟩⟩
    rw [hu] at habs
    simp at habs

/-- Witness for C9, at the all-whitespace diff `" "` and at the non-blank
diff `"hello"`. -/
theorem C9_input_error_witness :
    (((process_code_changes plain_env plain_cfg (str " ")).1 =
        Except.error (str "Diff content is empty") ↔ pyBlank (str " ") = true) ∧
      (pyBlank (str " ") = true → (process_code_changes plain_env plain_cfg (str " ")).2 = []) ∧
      (pyBlank (str " ") = false →
        ∃ u, (process_code_changes plain_env plain_cfg (str " ")).1 = Except.ok u)) ∧
    ((process_code_changes plain_env plain_cfg word_diff).1 =
        Except.error (str "Diff content is empty") ↔ pyBlank word_diff = true) :=
  ⟨C9_input_error_iff_blank plain_env plain_cfg (str " "),
   (C9_input_error_iff_blank plain_env plain_cfg word_diff).1⟩

/-- Claim C8: a non-blank diff whose parse yields no change records makes
`process_code_changes` return the fixed placeholder update
(score `0.5`, not ready, no snippets) with an empty collaborator-call
trace: no drafting, snippet-execution or evaluation calls happen. -/
theorem C8_empty_parse_placeholder {σ : Type} (env : OrchestratorEnv σ)
    (cfg : OrchestratorConfig) (diff_content : Str)
    (h1 : pyBlank diff_content = false) (h2 : parse_diff diff_content = []) :
    process_code_changes env cfg diff_content = (Except.ok empty_changes_update, []) ∧
    empty_changes_update.evaluation_score = 1/2 ∧
    empty_changes_update.ready_to_commit = false ∧
    empty_changes_update.code_snippets = [] := by
  refine ⟨?_, rfl, rfl, rfl⟩
  simp [process_code_changes, h1, structure_code_changes, h2]

/-- Witness for C8: the non-blank diff `"hello"` parses to zero records. -/
theorem C8_empty_parse_witness :
    pyBlank word_diff = false ∧ parse_diff word_diff = [] ∧
    (process_code_changes plain_env plain_cfg word_diff =
        (Except.ok empty_changes_update, []) ∧
      empty_changes_update.evaluation_score = 1/2 ∧
      empty_changes_update.ready_to_commit = false ∧
      empty_changes_update.code_snippets = []) :=
  ⟨by decide, by decide,
   C8_empty_parse_placeholder plain_env plain_cfg word_diff (by decide) (by decide)⟩

/-- Claim C3 (amended): on every run whose structured change list is
non-empty, the returned update satisfies `ready_to_commit = true` iff
`evaluation_score ≥ min_doc_quality_score`; on the empty-change-list
placeholder path the update instead has the fixed pair
`ready_to_commit = false`, `evaluation_score = 0.5` (so there the
equivalence holds only for thresholds above `0.5`, and the original
unconditional claim fails — see the counterexample). -/
theorem C3_ready_iff_threshold {σ : Type} (env : OrchestratorEnv σ)
    (cfg : OrchestratorConfig) (diff_content : Str) (u : DocumentationUpdate)
    (trace : List CallEvent)
    (h : process_code_changes env cfg diff_content = (Except.ok u, trace)) :
    ((structure_code_changes diff_content).changes ≠ [] →
      (u.ready_to_commit = true ↔ cfg.min_doc_quality_score ≤ u.evaluation_score)) ∧
    ((structure_code_changes diff_content).changes = [] →
      u.ready_to_commit = false ∧ u.evaluation_score = 1/2) := by
  by_cases hb : pyBlank diff_content
  · simp [process_code_changes, hb] at h
  · simp only [process_code_changes, hb, Bool.false_eq_true, if_false] at h
    by_cases hc : (structure_code_changes diff_content).changes = []
    · rw [if_pos hc] at h
      obtain ⟨hu, -⟩ := Prod.mk.injEq .. ▸ h
      cases hu
      refine ⟨fun habs => absurd hc habs, fun _ => ⟨rfl, rfl⟩⟩
    · rw [if_neg hc] at h
      obtain ⟨hu, -⟩ := Prod.mk.injEq .. ▸ h
      cases hu
      refine ⟨fun _ => ?_, fun habs => absurd habs hc⟩
      simp only [decide_eq_true_eq]

/-- Counterexample to C3 as stated: with the configured threshold `0.5`
(inside the documented range `[0,1]`) and the non-blank diff `"hello"`,
the placeholder path returns `evaluation_score = 0.5 ≥ threshold` yet
`ready_to_commit = false`, so the claimed equivalence is decoupled there. -/
theorem C3_counterexample :
    (process_code_changes plain_env half_cfg word_diff).1 = Except.ok empty_changes_update ∧
    half_cfg.min_doc_quality_score ≤ empty_changes_update.evaluation_score ∧
    empty_changes_update.ready_to_commit = false :=
  ⟨rfl, by with_unfolding_all decide, rfl⟩

/-- Witness for C3 (amended), on the placeholder path of the diff
`"hello"`. -/
theorem C3_ready_iff_threshold_witness :
    ((structure_code_changes word_diff).changes ≠ [] →
      (empty_changes_update.ready_to_commit = true ↔
        plain_cfg.min_doc_quality_score ≤ empty_changes_update.evaluation_score)) ∧
    ((structure_code_changes word_diff).changes = [] →
      empty_changes_update.ready_to_commit = false ∧
      empty_changes_update.evaluation_score = 1/2) :=
  C3_ready_iff_threshold plain_env plain_cfg word_diff empty_changes_update [] rfl

theorem self_correct_loop_revision_bound {σ : Type} (env : OrchestratorEnv σ)
    (cfg : OrchestratorConfig) (structured_changes : StructuredChanges) :
    ∀ (fuel : Nat) (documentation : Str) (evaluation : EvaluationResult)
      (execution_results : List FormattedResult),
      revisionCount
          (self_correct_loop env cfg structured_changes fuel documentation evaluation
            execution_results).2.2 ≤ fuel := by
  intro fuel
  induction fuel with
  | zero => intro d e r; simp [self_correct_loop, revisionCount]
  | succ n ih =>
    intro d e r
    simp only [self_correct_loop]
    split_ifs with h1 h2
    · rcases hg : env.gemini.generate (create_correction_prompt d e) with _ | revised
      · simp [hg, revisionCount]
      · simp only [hg, revisionCount, List.filter, List.length_cons]
        have := ih (revised)
          (evaluate_documentation revised (some (env.dumps structured_changes)) (some r)) r
        simp only [revisionCount] at this
        omega
    · rcases hg : env.gemini.generate (create_correction_prompt d e) with _ | revised
      all_goals {
        simp only [revisionCount, List.filter]
        have := ih d
          (evaluate_documentation d (some (env.dumps structured_changes)) (some r)) r
        simp only [revisionCount] at this
        omega
      }
    · simp [revisionCount]

/-- Claim C2: for every non-blank diff, threshold in `[0,1]` and attempt
bound, the pipeline performs at most `max_self_correction_attempts`
revision calls however low the score stays, and performs zero revision
calls when the first evaluation already meets the threshold.  (The model
is built from structurally recursive total functions, so the run always
terminates by construction.) -/
theorem C2_revisions_bounded {σ : Type} (env : OrchestratorEnv σ)
    (cfg : OrchestratorConfig) (diff_content : Str)
    (h1 : pyBlank diff_content = false)
    (_h2 : 0 ≤ cfg.min_doc_quality_score) (_h3 : cfg.min_doc_quality_score ≤ 1) :
    revisionCount (process_code_changes env cfg diff_content).2 ≤
      cfg.max_self_correction_attempts ∧
    (∀ q, firstEvalScore (process_code_changes env cfg diff_content).2 = some q →
      cfg.min_doc_quality_score ≤ q →
      revisionCount (process_code_changes env cfg diff_content).2 = 0) := by
  simp only [process_code_changes, h1, Bool.false_eq_true, if_false]
  by_cases hc : (structure_code_changes diff_content).changes = []
  · rw [if_pos hc]
    exact ⟨by simp [revisionCount], fun q hq => by simp [firstEvalScore] at hq⟩
  · rw [if_neg hc]
    simp only
    set structured := structure_code_changes diff_content with hstructured
    set docD := draft_documentation env structured with hdocD
    set sn := extract_code_snippets docD structured with hsn
    set res := format_execution_results sn (execute_code_snippets env.daytona none sn).2
      with hres
    set ev := evaluate_documentation docD (some (env.dumps structured)) (some res) with hev
    constructor
    · split_ifs with hscore
      · have hbound := self_correct_loop_revision_bound env cfg structured
          cfg.max_self_correction_attempts docD ev res
        simp only [self_correct, revisionCount, List.filter] at hbound ⊢
        omega
      · simp [revisionCount]
    · intro q hq hge
      simp only [firstEvalScore, List.findSome?] at hq
      rw [Option.some.injEq] at hq
      split_ifs with hscore
      · rw [hq] at hscore
        exact absurd hscore (not_lt.mpr hge)
      · simp [revisionCount]

/-- Witness for C2: the default configuration on the diff `"hello"`. -/
theorem C2_revisions_bounded_witness :
    pyBlank word_diff = false ∧ (0:ℚ) ≤ plain_cfg.min_doc_quality_score ∧
    plain_cfg.min_doc_quality_score ≤ 1 ∧
    (revisionCount (process_code_changes plain_env plain_cfg word_diff).2 ≤
        plain_cfg.max_self_correction_attempts ∧
      (∀ q, firstEvalScore (process_code_changes plain_env plain_cfg word_diff).2 = some q →
        plain_cfg.min_doc_quality_score ≤ q →
        revisionCount (process_code_changes plain_env plain_cfg word_diff).2 = 0)) :=
  ⟨by decide, by with_unfolding_all decide, by with_unfolding_all decide,
   C2_revisions_bounded plain_env plain_cfg word_diff (by decide)
     (by with_unfolding_all decide) (by with_unfolding_all decide)⟩

theorem self_correct_loop_stale {σ : Type} (env : OrchestratorEnv σ)
    (cfg : OrchestratorConfig) (structured_changes : StructuredChanges) :
    ∀ (fuel : Nat) (documentation : Str) (evaluation : EvaluationResult)
      (execution_results : List FormattedResult),
      ((self_correct_loop env cfg structured_changes fuel documentation evaluation
          execution_results).2.2).all (staleOk execution_results) = true := by
  intro fuel
  induction fuel with
  | zero => intro d e r; simp [self_correct_loop]
  | succ n ih =>
    intro d e r
    simp only [self_correct_loop]
    split_ifs with h1 h2
    · rcases hg : env.gemini.generate (create_correction_prompt d e) with _ | revised
      · simp [staleOk]
      · have htail := ih revised
          (evaluate_documentation revised (some (env.dumps structured_changes)) (some r)) r
        simp [staleOk, htail]
    · have htail := ih d
        (evaluate_documentation d (some (env.dumps structured_changes)) (some r)) r
      simp [staleOk, htail]
    · simp

/-- Claim C1 (amended): during self-correction the code never re-extracts
or re-executes snippets; every evaluation call inside `_self_correct` is
made with the revised documentation of that iteration but with exactly the
execution results that were computed for the initial draft before the loop
was entered (a stale pairing). -/
theorem C1_self_correct_reuses_initial_results {σ : Type} (env : OrchestratorEnv σ)
    (cfg : OrchestratorConfig) (documentation : Str)
    (structured_changes : StructuredChanges) (evaluation : EvaluationResult)
    (execution_results : List FormattedResult) :
    ((self_correct env cfg documentation structured_changes evaluation
        execution_results).2.2).all (staleOk execution_results) = true :=
  self_correct_loop_stale env cfg structured_changes cfg.max_self_correction_attempts
    documentation evaluation execution_results

/-- Counterexample to C1 as stated: in the concrete run of
`process_code_changes c1_env c1_cfg c1_diff`, the self-correction iteration
evaluates the revised documentation `c1_doc1` against `c1_results` — the
execution results produced for the first draft `c1_doc0` — which differ
from the freshly produced execution results that re-running snippet
extraction and execution on `c1_doc1` would give, refuting the claim that
each iteration re-executes and evaluates against fresh results. -/
theorem C1_counterexample :
    (process_code_changes c1_env c1_cfg c1_diff).2.filterMap evalDocResults =
      [(c1_doc0, c1_results), (c1_doc1, c1_results)] ∧
    c1_doc1 ≠ c1_doc0 ∧
    c1_results ≠ fresh_execution_for c1_env c1_doc1 (structure_code_changes c1_diff) := by
  with_unfolding_all decide

theorem map_fst_dict_overwrite (d : List (Str × ExecutionResult)) (k : Str)
    (v : ExecutionResult) :
    (d.map fun p => if p.1 = k then (k, v) else p).map Prod.fst = d.map Prod.fst := by
  induction d with
  | nil => rfl
  | cons p ps ih =>
    simp only [List.map_cons, List.cons.injEq]
    refine ⟨?_, ih⟩
    split_ifs with hp
    · exact hp.symm
    · rfl

theorem dictInsert_keys (d : List (Str × ExecutionResult)) (k : Str) (v : ExecutionResult) :
    (dictInsert d k v).map Prod.fst =
      if d.any (fun p => p.1 = k) then d.map Prod.fst else d.map Prod.fst ++ [k] := by
  unfold dictInsert
  split_ifs with h
  · exact map_fst_dict_overwrite d k v
  · simp

theorem dictInsert_mem_keys (d : List (Str × ExecutionResult)) (k k' : Str)
    (v : ExecutionResult) (h : k' ∈ d.map Prod.fst) :
    k' ∈ (dictInsert d k v).map Prod.fst := by
  rw [dictInsert_keys]
  split_ifs
  · exact h
  · exact List.mem_append_left _ h

theorem dictInsert_key_mem (d : List (Str × ExecutionResult)) (k : Str)
    (v : ExecutionResult) : k ∈ (dictInsert d k v).map Prod.fst := by
  rw [dictInsert_keys]
  split_ifs with h
  · obtain ⟨p, hp, hpk⟩ := List.any_eq_true.mp h
    simp only [decide_eq_true_eq] at hpk
    exact hpk ▸ List.mem_map_of_mem Prod.fst hp
  · exact List.mem_append_right _ (List.mem_singleton.mpr rfl)

theorem dictInsert_keys_sub (d : List (Str × ExecutionResult)) (k k' : Str)
    (v : ExecutionResult) (h : k' ∈ (dictInsert d k v).map Prod.fst) :
    k' ∈ d.map Prod.fst ∨ k' = k := by
  rw [dictInsert_keys] at h
  split_ifs at h
  · exact Or.inl h
  · rcases List.mem_append.mp h with h' | h'
    · exact Or.inl h'
    · exact Or.inr (List.mem_singleton.mp h')

theorem dictInsert_nodup_keys (d : List (Str × ExecutionResult)) (k : Str)
    (v : ExecutionResult) (h : (d.map Prod.fst).Nodup) :
    ((dictInsert d k v).map Prod.fst).Nodup := by
  rw [dictInsert_keys]
  split_ifs with hk
  · exact h
  · have hnot : ∀ p ∈ d, ¬p.1 = k := by
      intro p hp hpk
      exact hk (List.any_eq_true.mpr ⟨p, hp, by simpa using hpk⟩)
    have hkmem : k ∉ d.map Prod.fst := by
      intro hmem
      obtain ⟨p, hp, hpk⟩ := List.mem_map.mp hmem
      exact hnot p hp hpk
    simp [List.nodup_append, h, hkmem]

theorem dictInsert_mem_values (d : List (Str × ExecutionResult)) (k : Str)
    (v : ExecutionResult) (p : Str × ExecutionResult) (h : p ∈ dictInsert d k v) :
    p ∈ d ∨ p = (k, v) := by
  unfold dictInsert at h
  split_ifs at h with hk
  · obtain ⟨q, hq, hpq⟩ := List.mem_map.mp h
    by_cases hqk : q.1 = k
    · rw [if_pos hqk] at hpq
      exact Or.inr hpq.symm
    · rw [if_neg hqk] at hpq
      exact Or.inl (hpq ▸ hq)
  · rcases List.mem_append.mp h with h' | h'
    · exact Or.inl h'
    · exact Or.inr (List.mem_singleton.mp h')

theorem dictGet_eq_map_find (d : List (Str × ExecutionResult)) (k : Str) :
    dictGet d k = (d.find? fun p => decide (p.1 = k)).map Prod.snd := by
  unfold dictGet
  rcases hf : d.find? fun p => decide (p.1 = k) with _ | p <;> simp [hf]

theorem dictGet_isSome_iff (d : List (Str × ExecutionResult)) (k : Str) :
    (dictGet d k).isSome = true ↔ k ∈ d.map Prod.fst := by
  rw [dictGet_eq_map_find]
  rcases hf : d.find? (fun p => decide (p.1 = k)) with _ | p
  · rw [hf]
    rw [List.find?_eq_none] at hf
    simp only [Option.map_none', Option.isSome_none, Bool.false_eq_true, false_iff]
    intro hmem
    obtain ⟨q, hq, hqk⟩ := List.mem_map.mp hmem
    have hne := hf q hq
    simp only [decide_eq_true_eq] at hne
    exact hne hqk
  · rw [hf]
    have hp := List.find?_some hf
    have hmem := List.mem_of_find?_eq_some hf
    simp only [Option.map_some', Option.isSome_some, true_iff]
    simp only [decide_eq_true_eq] at hp
    exact hp ▸ List.mem_map_of_mem Prod.fst hmem

theorem esf_preserves_keys {σ : Type} (env : DaytonaEnv σ) :
    ∀ (code_snippets : List Snippet) (acc : Option σ × List (Str × ExecutionResult))
      (k : Str), k ∈ acc.2.map Prod.fst →
      k ∈ (execute_snippets_fold env acc code_snippets).2.map Prod.fst := by
  intro code_snippets
  induction code_snippets with
  | nil => intro acc k h; exact h
  | cons s ss ih =>
    intro acc k h
    exact ih _ k (dictInsert_mem_keys _ _ _ _ h)

theorem esf_snippet_keys {σ : Type} (env : DaytonaEnv σ) :
    ∀ (code_snippets : List Snippet) (acc : Option σ × List (Str × ExecutionResult))
      (s : Snippet), s ∈ code_snippets →
      s.id ∈ (execute_snippets_fold env acc code_snippets).2.map Prod.fst := by
  intro code_snippets
  induction code_snippets with
  | nil => intro acc s h; cases h
  | cons t ts ih =>
    intro acc s h
    rcases List.mem_cons.mp h with h' | h'
    · subst h'
      exact esf_preserves_keys env ts _ s.id (dictInsert_key_mem _ _ _)
    · exact ih _ s h'

theorem esf_nodup_keys {σ : Type} (env : DaytonaEnv σ) :
    ∀ (code_snippets : List Snippet) (acc : Option σ × List (Str × ExecutionResult)),
      (acc.2.map Prod.fst).Nodup →
      ((execute_snippets_fold env acc code_snippets).2.map Prod.fst).Nodup := by
  intro code_snippets
  induction code_snippets with
  | nil => intro acc h; exact h
  | cons s ss ih =>
    intro acc h
    exact ih _ (dictInsert_nodup_keys _ _ _ h)

theorem esf_keys_origin {σ : Type} (env : DaytonaEnv σ) :
    ∀ (code_snippets : List Snippet) (acc : Option σ × List (Str × ExecutionResult))
      (k : Str), k ∈ (execute_snippets_fold env acc code_snippets).2.map Prod.fst →
      k ∈ acc.2.map Prod.fst ∨ ∃ s ∈ code_snippets, s.id = k := by
  intro code_snippets
  induction code_snippets with
  | nil => intro acc k h; exact Or.inl h
  | cons s ss ih =>
    intro acc k h
    rcases ih _ k h with h' | ⟨t, ht, htk⟩
    · rcases dictInsert_keys_sub _ _ _ _ h' with h'' | h''
      · exact Or.inl h''
      · exact Or.inr ⟨s, List.mem_cons_self s ss, h''.symm⟩
    · exact Or.inr ⟨t, List.mem_cons_of_mem s ht, htk⟩

theorem execute_code_no_sandbox {σ : Type} (env : DaytonaEnv σ)
    (code language : Str) (h : env.create = none) :
    execute_code env none code language = (none, sandbox_failure_result) := by
  simp [execute_code, h, sandbox_failure_result]

theorem esf_failure_values {σ : Type} (env : DaytonaEnv σ) (h : env.create = none) :
    ∀ (code_snippets : List Snippet) (d : List (Str × ExecutionResult)),
      (∀ p ∈ d, p.2 = sandbox_failure_result) →
      ∀ p ∈ (execute_snippets_fold env (none, d) code_snippets).2,
        p.2 = sandbox_failure_result := by
  intro code_snippets
  induction code_snippets with
  | nil => intro d hd p hp; exact hd p hp
  | cons s ss ih =>
    intro d hd p hp
    have hstep : execute_code env none s.code s.language = (none, sandbox_failure_result) :=
      execute_code_no_sandbox env s.code s.language h
    rw [show execute_snippets_fold env (none, d) (s :: ss) =
        execute_snippets_fold env
          ((execute_code env none s.code s.language).1,
            dictInsert d s.id (execute_code env none s.code s.language).2) ss from rfl,
      hstep] at hp
    refine ih _ ?_ p hp
    intro q hq
    rcases dictInsert_mem_values _ _ _ q hq with h' | h'
    · exact hd q h'
    · rw [h']

theorem execute_code_exn_result {σ : Type} (env : DaytonaEnv σ) (sb : σ)
    (code language msg : Str)
    (h : (if language = str "python" then env.code_run sb code
          else env.exec_run sb code) = RunOutcome.exn msg) :
    (execute_code env (some sb) code language).2 =
      { success := false, exit_code := -1, output := [], error := some msg } := by
  simp [execute_code, h]

/-- Claim C7: for every snippet list handed to `execute_code_snippets`, the
returned id-keyed mapping has pairwise-distinct keys, a key for every
snippet's id (so a lookup succeeds for each snippet — one failure never
aborts the batch) and no keys beyond the snippet ids; when no sandbox
exists and none can be created every recorded result is the fixed
`{success: false, exit_code: -1, output: "", error: "Failed to create
sandbox"}`, and when the remote execution call raises, that snippet's
result is `{success: false, exit_code: -1, output: "", error: str(e)}`. -/
theorem C7_batch_execution_total {σ : Type} (env : DaytonaEnv σ)
    (sandbox : Option σ) (code_snippets : List Snippet) :
    (∀ s ∈ code_snippets, ∃ r,
      dictGet (execute_code_snippets env sandbox code_snippets).2 s.id = some r) ∧
    (((execute_code_snippets env sandbox code_snippets).2.map Prod.fst).Nodup) ∧
    (∀ k ∈ (execute_code_snippets env sandbox code_snippets).2.map Prod.fst,
      ∃ s ∈ code_snippets, s.id = k) ∧
    (sandbox = none → env.create = none →
      ∀ p ∈ (execute_code_snippets env sandbox code_snippets).2,
        p.2 = sandbox_failure_result) ∧
    (∀ (sb : σ) (code language msg : Str),
      (if language = str "python" then env.code_run sb code
        else env.exec_run sb code) = RunOutcome.exn msg →
      (execute_code env (some sb) code language).2 =
        { success := false, exit_code := -1, output := [], error := some msg }) := by
  refine ⟨?_, ?_, ?_, ?_, ?_⟩
  · intro s hs
    have hkey := esf_snippet_keys env code_snippets (sandbox, []) s hs
    have hsome := (dictGet_isSome_iff _ _).mpr hkey
    exact Option.isSome_iff_exists.mp hsome
  · exact esf_nodup_keys env code_snippets (sandbox, []) (by simp)
  · intro k hk
    rcases esf_keys_origin env code_snippets (sandbox, []) k hk with h' | h'
    · simp at h'
    · exact h'
  · intro hsb hcr p hp
    subst hsb
    exact esf_failure_values env hcr code_snippets [] (by simp) p hp
  · exact fun sb code language msg h => execute_code_exn_result env sb code language msg h

/-- Witness for C7: concrete two-snippet batch against the sandbox whose
creation always fails. -/
theorem C7_batch_execution_witness :
    ((str "snippet_0") ∈ (execute_code_snippets failing_daytona none c7_snippets).2.map
      Prod.fst) ∧
    (∀ p ∈ (execute_code_snippets failing_daytona none c7_snippets).2,
      p.2 = sandbox_failure_result) :=
  ⟨by decide,
   (C7_batch_execution_total failing_daytona none c7_snippets).2.2.2.1 rfl rfl⟩

theorem changeSnippets_structure (changes : List CodeChange) :
    changeSnippets (changes.map structureOne) =
      changes.filterMap (fun c =>
        if c.lines_added ≠ [] then
          some
            { id := str "change_" ++ c.file_path
              code := joinNL (c.lines_added.take 10)
              language := c.language
              source := str "code_change" }
        else none) := by
  unfold changeSnippets
  rw [List.filterMap_map]
  congr 1
  funext c
  simp only [Function.comp, structureOne]
  by_cases hne : c.lines_added = []
  · simp [hne]
  · have h10 : ¬c.lines_added.take 10 = [] := by
      simp [List.take_eq_nil_iff, hne]
    simp only [ne_eq, hne, h10, not_false_eq_true, if_true, List.take_take]
    norm_num

/-- Claim C5 (amended): for every `ChangeRecord` with non-empty added
lines, extraction emits exactly one synthetic snippet with id
`change_{file_path}`, source `code_change` and the record's language — but
its code is the first `min(10, n)` added lines joined with newlines, not
`min(20, n)`: `structure_code_changes` stores only the first 10 added lines
and the extractor's 20-line cap is applied to that 10-line list, so a
record with 15 added lines yields a 10-line snippet. -/
theorem C5_one_snippet_per_changed_file (documentation diff_content : Str) :
    extract_code_snippets documentation (structure_code_changes diff_content) =
      docSnippets documentation ++
      (parse_diff diff_content).filterMap (fun c =>
        if c.lines_added ≠ [] then
          some
            { id := str "change_" ++ c.file_path
              code := joinNL (c.lines_added.take 10)
              language := c.language
              source := str "code_change" }
        else none) := by
  unfold extract_code_snippets structure_code_changes
  rw [changeSnippets_structure]

/-- Counterexample to C5 as stated: the diff `c5_diff` adds 15 lines to one
file, yet the extracted synthetic snippet has only 10 lines of code — not
`min(20, 15) = 15`. -/
theorem C5_counterexample :
    (parse_diff c5_diff).map (fun c => c.lines_added.length) = [15] ∧
    (extract_code_snippets [] (structure_code_changes c5_diff)).map
        (fun s => (s.id, (splitOnChar '\n' s.code).length)) =
      [(str "change_x.py", 10)] ∧
    (extract_code_snippets [] (structure_code_changes c5_diff)).map (fun s => s.code) ≠
      (parse_diff c5_diff).map (fun c => joinNL (c.lines_added.take 20)) := by
  with_unfolding_all decide

theorem startsWith_head_ne (l : Str) (c c' : Char) (p p' : Str) (hne : c ≠ c')
    (h : strStartsWith l (c :: p) = true) : strStartsWith l (c' :: p') = false := by
  cases l with
  | nil => simp [strStartsWith] at h
  | cons a t =>
    simp only [strStartsWith, Bool.and_eq_true, decide_eq_true_eq] at h
    simp [strStartsWith, h.1, hne]

theorem parseStep_body (st : ParseState) (l : Str) (hl : bodyLineOk l = true) :
    parseStep st l =
      { st with
        added_lines := st.added_lines ++ (addOf l).toList
        removed_lines := st.removed_lines ++ (remOf l).toList } := by
  obtain ⟨hdg, hppp⟩ :
      strStartsWith l (str "diff --git") = false ∧ strStartsWith l (str "+++") = false := by
    simpa [bodyLineOk, Bool.not_eq_true'] using hl
  unfold parseStep addOf remOf
  rw [hdg, hppp]
  simp only [Bool.false_eq_true, if_false, Bool.false_or, Bool.not_false, Bool.and_true]
  by_cases hdash : strStartsWith l (str "---") = true
  · have hplusf : strStartsWith l (str "+") = false :=
      startsWith_head_ne l '-' '+' (str "--") (str "") (by decide) hdash
    rw [hdash, hplusf]
    simp
  · have hdashf : strStartsWith l (str "---") = false := by
      simpa using hdash
    rw [hdashf]
    simp only [Bool.false_eq_true, if_false, Bool.not_false, Bool.and_true]
    by_cases hplus : strStartsWith l (str "+") = true
    · have hminusf : strStartsWith l (str "-") = false :=
        startsWith_head_ne l '+' '-' (str "") (str "") (by decide) hplus
    
      rw [hplus, hminusf]
      simp
    · have hplusf : strStartsWith l (str "+") = false := by
        simpa using hplus
      rw [hplusf]
      simp only [Bool.false_eq_true, if_false]
      by_cases hminus : strStartsWith l (str "-") = true
      · rw [hminus]
        simp
      · have hminusf : strStartsWith l (str "-") = false := by
          simpa using hminus
        rw [hminusf]
        simp

theorem parseFold_body (ls : List Str) :
    ∀ (st : ParseState), (∀ l ∈ ls, bodyLineOk l = true) →
      List.foldl parseStep st ls =
        { st with
          added_lines := st.added_lines ++ ls.filterMap addOf
          removed_lines := st.removed_lines ++ ls.filterMap remOf } := by
  induction ls with
  | nil => intro st _; simp
  | cons l ls ih =>
    intro st h
    rw [List.foldl_cons, parseStep_body st l (h l (List.mem_cons_self l ls)),
      ih _ (fun l' hl' => h l' (List.mem_cons_of_mem l hl'))]
    rcases ha : addOf l with _ | a <;> rcases hr : remOf l with _ | r <;>
      simp [List.filterMap_cons, ha, hr]

theorem parseStep_path (st : ParseState) (l : Str)
    (h : strStartsWith l (str "+++") = true) :
    parseStep st l = { st with current_file := some (stripPathTokens l) } := by
  have hdg : strStartsWith l (str "diff --git") = false :=
    startsWith_head_ne l '+' 'd' (str "++") (str "iff --git") (by decide) h
  unfold parseStep
  rw [hdg, h]
  simp

theorem parseStep_header (st : ParseState) (l : Str)
    (h : strStartsWith l (str "diff --git") = true) :
    parseStep st l =
      { st with
        changes := st.changes ++ flushPending st
        added_lines := []
        removed_lines := [] } := by
  unfold parseStep flushPending
  rw [h]
  obtain ⟨cf, ty, a, r, ch⟩ := st
  rcases cf with _ | f
  · simp
  · by_cases hf : f = [] <;> simp [hf]

theorem flushFinal_eq (st : ParseState) :
    flushFinal st = st.changes ++ flushPending st := by
  unfold flushFinal flushPending
  rcases hcf : st.current_file with _ | f
  · simp
  · by_cases hf : f = [] <;> simp [hf]

theorem parseFold_section (s : DiffSection) (st : ParseState) (hs : goodSection s) :
    List.foldl parseStep st (sectionLines s) =
      { current_file := some (stripPathTokens s.path_line)
        current_type := st.current_type
        added_lines := (s.pre ++ s.post).filterMap addOf
        removed_lines := (s.pre ++ s.post).filterMap remOf
        changes := st.changes ++ flushPending st } := by
  obtain ⟨hh, hp, -, hbody⟩ := hs
  unfold sectionLines
  rw [List.foldl_cons, parseStep_header st s.header hh,
    show s.pre ++ [s.path_line] ++ s.post = s.pre ++ ([s.path_line] ++ s.post) from
      List.append_assoc s.pre [s.path_line] s.post,
    List.foldl_append,
    parseFold_body s.pre _ (fun l hl => hbody l (List.mem_append_left _ hl)),
    show ([s.path_line] ++ s.post : List Str) = s.path_line :: s.post from rfl,
    List.foldl_cons, parseStep_path _ s.path_line hp,
    parseFold_body s.post _ (fun l hl => hbody l (List.mem_append_right _ hl))]
  simp [List.filterMap_append]

theorem parseFold_sections (sections : List DiffSection) :
    ∀ (st : ParseState), (∀ s ∈ sections, goodSection s) →
      st.current_type = str "modified" →
      flushFinal (List.foldl parseStep st ((sections.map sectionLines).flatten)) =
        (st.changes ++ flushPending st) ++ sections.map sectionChange := by
  induction sections with
  | nil => intro st _ _; simp [flushFinal_eq]
  | cons s ss ih =>
    intro st h hty
    rw [List.map_cons, show ((sectionLines s :: ss.map sectionLines).flatten : List Str) =
        sectionLines s ++ (ss.map sectionLines).flatten from rfl,
      List.foldl_append, parseFold_section s st (h s (List.mem_cons_self s ss))]
    set st' : ParseState :=
      { current_file := some (stripPathTokens s.path_line)
        current_type := st.current_type
        added_lines := (s.pre ++ s.post).filterMap addOf
        removed_lines := (s.pre ++ s.post).filterMap remOf
        changes := st.changes ++ flushPending st } with hst'
    rw [ih st' (fun t ht => h t (List.mem_cons_of_mem s ht)) (by rw [hst']; exact hty)]
    obtain ⟨-, -, hne, -⟩ := h s (List.mem_cons_self s ss)
    have hflush : flushPending st' =
        [mkCodeChange (stripPathTokens s.path_line) (str "modified")
          ((s.pre ++ s.post).filterMap addOf) ((s.pre ++ s.post).filterMap remOf)] := by
      rw [hst']
      simp [flushPending, hty, hne]
    have hchanges : st'.changes = st.changes ++ flushPending st := by rw [hst']
    rw [hchanges, hflush]
    simp only [List.map_cons]
    rw [show sectionChange s = mkCodeChange (stripPathTokens s.path_line) (str "modified")
        ((s.pre ++ s.post).filterMap addOf) ((s.pre ++ s.post).filterMap remOf) from rfl]
    simp [List.append_assoc]

/-- Claim C4 (amended): for every diff text that splits into well-formed
`diff --git` sections — each with its own `+++` path-marker line whose
stripped path is non-empty (Python's `if current_file:` treats an empty
path as no open section), and body lines that are neither new headers nor
further `+++` markers — the parser yields exactly one `CodeChange` per
section, carrying that section's own
`+`-content lines as `lines_added` and `-`-content lines (those not
starting with the `---` marker) as `lines_removed`, attributed to that
section's path and never to another file.  (The original unrestricted claim
is refuted by `C4_counterexample`: a section without a `+++` line never
opens a file section, so N headers can yield fewer than N records.) -/
theorem C4_well_formed_sections_parse (diff_content : Str)
    (sections : List DiffSection)
    (hsplit : splitOnChar '\n' diff_content = (sections.map sectionLines).flatten)
    (hgood : ∀ s ∈ sections, goodSection s) :
    parse_diff diff_content = sections.map sectionChange := by
  unfold parse_diff
  rw [hsplit, parseFold_sections sections initParseState hgood rfl]
  simp [initParseState, flushPending]

/-- Counterexample to C4 as stated: `c4_diff` contains exactly one
`diff --git` section header (and an added content line), yet the parser
emits zero `CodeChange` records, because the section has no `+++` line. -/
theorem C4_counterexample :
    ((splitOnChar '\n' c4_diff).filter
      (fun l => strStartsWith l (str "diff --git"))).length = 1 ∧
    (parse_diff c4_diff).length = 0 := by
  decide

/-- Witness for C4 (amended): a concrete well-formed two-section diff,
parsed into exactly its two per-section records. -/
theorem C4_well_formed_sections_witness :
    parse_diff c4_good_diff = [c4_sec1, c4_sec2].map sectionChange :=
  C4_well_formed_sections_parse c4_good_diff [c4_sec1, c4_sec2] (by decide) (by decide)
